import Mathlib

/-!
Verification of the zmodem2-js core against its specification.

The definitions below are shallow embeddings of the TypeScript sources:
`src/lib/crc.ts` (shipped inside `benchmarks/benchmark.mjs`),
`src/lib/header.ts`, and `src/lib/transmission.ts`.  Bytes are `Nat`
values masked explicitly (`% 256`, `% 2 ^ 32`) exactly where the
JavaScript code masks (`& 0xFF`, `>>> 0`).  Fallible operations return
values in the `Except` monad paired with the post-state, mirroring the
fact that a thrown JavaScript exception leaves already-performed
mutations in place.
-/

namespace Zmodem

/-- Error taxonomy, from `src/lib/error.ts`. -/
inductive ZErr where
  | malformedEncoding (byte : Nat)
  | malformedFileSize
  | malformedFileName
  | malformedFrame (byte : Nat)
  | malformedHeader
  | malformedPacket (byte : Nat)
  | outOfMemory
  | unexpectedCrc16
  | unexpectedCrc32
  | unexpectedEof
  | unsupported
  deriving DecidableEq

deriving instance DecidableEq for Except

/-! ## CRC primitives (`src/lib/crc.ts`) -/

/-- One round of the CRC-16 bit loop:
`crc = (crc << 1) ^ (msb ? 0x1021 : 0)` masked to 16 bits. -/
def crc16Bit (crc : Nat) : Nat :=
  if crc &&& 0x8000 ≠ 0 then ((crc <<< 1) ^^^ 0x1021) &&& 0xFFFF
  else (crc <<< 1) &&& 0xFFFF

/-- `crc16Update`: xor the byte (shifted left 8) into the running value,
then 8 bit rounds. -/
def crc16Update (crc byte : Nat) : Nat :=
  (crc16Bit ∘ crc16Bit ∘ crc16Bit ∘ crc16Bit ∘
   crc16Bit ∘ crc16Bit ∘ crc16Bit ∘ crc16Bit)
    (crc ^^^ ((byte % 256) <<< 8))

/-- One round of the CRC-32 bit loop:
`crc = (crc >>> 1) ^ (lsb ? 0xEDB88320 : 0)`. -/
def crc32Bit (crc : Nat) : Nat :=
  if crc &&& 1 ≠ 0 then (crc >>> 1) ^^^ 0xEDB88320
  else crc >>> 1

/-- `crc32Update`: xor the byte into the running value, then 8 bit
rounds.  The running value is kept below `2 ^ 32` (the JavaScript code
keeps it as a 32-bit pattern via `>>> 0` and int32 coercions). -/
def crc32Update (crc byte : Nat) : Nat :=
  (crc32Bit ∘ crc32Bit ∘ crc32Bit ∘ crc32Bit ∘
   crc32Bit ∘ crc32Bit ∘ crc32Bit ∘ crc32Bit)
    ((crc % 2 ^ 32) ^^^ (byte % 256))

/-- One-shot `crc16Xmodem`. -/
def crc16Xmodem (data : List Nat) : Nat :=
  data.foldl crc16Update 0

/-- One-shot `crc32IsoHdlc`. -/
def crc32IsoHdlc (data : List Nat) : Nat :=
  (data.foldl crc32Update 0xFFFFFFFF) ^^^ 0xFFFFFFFF

/-- Incremental `Crc16` object: the state is the running value, starting
at `0x0000`; `update` folds `updateByte`; `finalize` returns the
state. -/
def Crc16.update (state : Nat) (data : List Nat) : Nat :=
  data.foldl crc16Update state

def Crc16.finalize (state : Nat) : Nat := state

/-- Incremental `Crc32` object: the state is the running value, starting
at `0xFFFFFFFF`; `finalize` applies the final xor. -/
def Crc32.update (state : Nat) (data : List Nat) : Nat :=
  data.foldl crc32Update state

def Crc32.finalize (state : Nat) : Nat :=
  state ^^^ 0xFFFFFFFF

end Zmodem

namespace Zmodem

/-- The ASCII bytes of the string of digits 1 to 9. -/
def checkBytes : List Nat := [0x31, 0x32, 0x33, 0x34, 0x35, 0x36, 0x37, 0x38, 0x39]

set_option maxRecDepth 10000 in
/-- C4: the one-shot CRC primitives match their standard check vectors:
`crc16_xmodem("123456789") = 0x31C3` and
`crc32_iso_hdlc("123456789") = 0xCBF43926`. -/
theorem crc_check_vectors :
    crc16Xmodem checkBytes = 0x31C3 ∧ crc32IsoHdlc checkBytes = 0xCBF43926 := by
  constructor <;> decide

/-- C5: an incremental CRC object freshly created, updated with `a`,
then updated with `b`, finalizes to the one-shot CRC of `a ++ b`; this
holds for both `Crc16` (initial state `0x0000`) and `Crc32` (initial
state `0xFFFFFFFF`). -/
theorem crc_incremental_concat (a b : List Nat) :
    Crc16.finalize (Crc16.update (Crc16.update 0x0000 a) b) = crc16Xmodem (a ++ b) ∧
    Crc32.finalize (Crc32.update (Crc32.update 0xFFFFFFFF a) b) = crc32IsoHdlc (a ++ b) := by
  constructor
  · simp [Crc16.finalize, Crc16.update, crc16Xmodem, List.foldl_append]
  · simp [Crc32.finalize, Crc32.update, crc32IsoHdlc, List.foldl_append]

/-! ## Protocol constants (`src/lib/constants.ts`) -/

def ZPAD : Nat := 0x2a
def ZDLE : Nat := 0x18
def XON : Nat := 0x11
def SUBPACKET_MAX_SIZE : Nat := 8192
def SUBPACKET_PER_ACK : Nat := 200
def HEADER_PAYLOAD_SIZE : Nat := 5

/-! ## ZDLE escape tables -/

/-- Modelled from the spec: `src/lib/zdle.ts` (the 256-entry
`ZDLE_TABLE`) is not present under `src/`; §4.2 of the specification
gives the escape mapping 0x10→0x50, 0x11→0x51, 0x13→0x53, 0x18→0x58,
0x90→0xD0, 0x91→0xD1, 0x93→0xD3, 0x8D→0xCD, and pass-through
(`escape(b) = b`) for all other bytes. -/
def zdleTable (b : Nat) : Nat :=
  match b with
  | 0x10 => 0x50
  | 0x11 => 0x51
  | 0x13 => 0x53
  | 0x18 => 0x58
  | 0x90 => 0xD0
  | 0x91 => 0xD1
  | 0x93 => 0xD3
  | 0x8D => 0xCD
  | _ => b

/-- Modelled from the spec: `src/lib/zdle.ts` (the 256-entry
`UNZDLE_TABLE`) is not present under `src/`; per §4.2 it is the
functional inverse of the escape table on the escaped-image range and
the identity elsewhere. -/
def unzdleTable (b : Nat) : Nat :=
  match b with
  | 0x50 => 0x10
  | 0x51 => 0x11
  | 0x53 => 0x13
  | 0x58 => 0x18
  | 0xD0 => 0x90
  | 0xD1 => 0x91
  | 0xD3 => 0x93
  | 0xCD => 0x8D
  | _ => b

/-! ## Header codec (`src/lib/header.ts`) -/

/-- Frame encoding type; on-wire bytes 0x41 / 0x42 / 0x43. -/
inductive Enc where
  | zbin
  | zhex
  | zbin32
  deriving DecidableEq

def Enc.toByte : Enc → Nat
  | .zbin => 0x41
  | .zhex => 0x42
  | .zbin32 => 0x43

/-- Frame-type byte values used by the core (the `Frame` enum). -/
def frameZRQINIT : Nat := 0
def frameZRINIT : Nat := 1
def frameZACK : Nat := 3
def frameZFILE : Nat := 4
def frameZNAK : Nat := 6
def frameZFIN : Nat := 8
def frameZRPOS : Nat := 9
def frameZDATA : Nat := 10
def frameZEOF : Nat := 11

/-- `frameFromByte`: frame values 0..19 are accepted, everything else is
a malformed-frame failure. -/
def frameFromByte (v : Nat) : Except ZErr Nat :=
  if v ≤ 19 then .ok v else .error (.malformedFrame v)

/-- A ZMODEM header: encoding, frame type and the 4 flag bytes (the
TypeScript class stores the flags as a `Uint8Array(4)`, so its entries
are bytes). -/
structure ZHeader where
  encoding : Enc
  frame : Nat
  flags : List Nat
  deriving DecidableEq

/-- `getUint32(0, true)` of a 4-byte buffer: the little-endian 32-bit
value of the flag bytes. -/
def le32 (flags : List Nat) : Nat :=
  flags.getD 0 0 + 256 * flags.getD 1 0 + 65536 * flags.getD 2 0 +
    16777216 * flags.getD 3 0

def ZHeader.count (h : ZHeader) : Nat := le32 h.flags

/-- `setUint32(0, v, true)`: the 4 little-endian bytes of `v` after the
JavaScript `ToUint32` wrap. -/
def le4 (v : Nat) : List Nat :=
  [v % 2 ^ 32 % 256, v % 2 ^ 32 / 256 % 256, v % 2 ^ 32 / 65536 % 256,
   v % 2 ^ 32 / 16777216 % 256]

/-- Big-endian 16-bit CRC trailer bytes: `[(crc >> 8) & 0xFF, crc & 0xFF]`. -/
def be2 (v : Nat) : List Nat := [(v >>> 8) &&& 0xFF, v &&& 0xFF]

def ZHeader.withCount (h : ZHeader) (count : Nat) : ZHeader :=
  ⟨h.encoding, h.frame, le4 count⟩

/-- `Header.readSize`: decoded payload+CRC length the reader collects. -/
def readSize : Enc → Nat
  | .zbin => HEADER_PAYLOAD_SIZE + 2
  | .zbin32 => HEADER_PAYLOAD_SIZE + 4
  | .zhex => (HEADER_PAYLOAD_SIZE + 2) * 2

/-- ASCII code of the lowercase hex digit of `d` (for `d < 16`). -/
def hexDigit (d : Nat) : Nat :=
  if d < 10 then 0x30 + d else 0x57 + d

/-- The two lowercase-hex ASCII characters of a byte; equals
`b.toString(16).padStart(2, '0')` for `b < 256`. -/
def hexByte (b : Nat) : List Nat := [hexDigit (b / 16), hexDigit (b % 16)]

/-- The CRC trailer bytes of a header payload: CRC-32 little-endian for
ZBIN32, CRC-16 big-endian otherwise. -/
def headerCrcBytes (e : Enc) (payload : List Nat) : List Nat :=
  match e with
  | .zbin32 => le4 (crc32IsoHdlc payload)
  | _ => be2 (crc16Xmodem payload)

/-- `writeSliceEscaped`: per-byte ZDLE escaping — if `escape(b) ≠ b`,
emit ZDLE then `escape(b)`, else emit `b`. -/
def escapeBytes (data : List Nat) : List Nat :=
  data.flatMap fun b =>
    let e := zdleTable b
    if e ≠ b then [ZDLE, e] else [b]

/-- The framing bytes that open a header on the wire:
ZPAD (twice for ZHEX), ZDLE, then the encoding byte. -/
def wireIntro (e : Enc) : List Nat :=
  match e with
  | .zhex => [ZPAD, ZPAD, ZDLE, 0x42]
  | .zbin => [ZPAD, ZDLE, 0x41]
  | .zbin32 => [ZPAD, ZDLE, 0x43]

/-- `Header.encode`: framing bytes, then the 5-byte payload plus CRC
trailer, hex-encoded with a CR LF [XON] tail for ZHEX (XON omitted for
ZACK and ZFIN) and ZDLE-escaped for the binary encodings. -/
def ZHeader.encode (h : ZHeader) : List Nat :=
  let payload := h.frame :: h.flags
  let full := payload ++ headerCrcBytes h.encoding payload
  match h.encoding with
  | .zhex =>
      wireIntro .zhex ++ full.flatMap hexByte ++ [0x0d, 0x0a] ++
        (if h.frame ≠ frameZACK ∧ h.frame ≠ frameZFIN then [XON] else [])
  | e => wireIntro e ++ escapeBytes full

/-- The numeric value of an ASCII hex digit, if any.  (The JavaScript
code parses pairs with `parseInt(s, 16)`, which also accepts uppercase;
its whitespace/sign handling is not modelled — those characters cannot
reach this code from the claims settled here.) -/
def hexVal (c : Nat) : Option Nat :=
  if 0x30 ≤ c ∧ c ≤ 0x39 then some (c - 0x30)
  else if 0x61 ≤ c ∧ c ≤ 0x66 then some (c - 0x57)
  else if 0x41 ≤ c ∧ c ≤ 0x46 then some (c - 0x37)
  else none

/-- `parseInt` on a two-character string: fails if the first character
is not a hex digit, parses the valid leading digits otherwise. -/
def jsParseHex2 (c1 c2 : Nat) : Option Nat :=
  match hexVal c1 with
  | none => none
  | some v1 =>
    match hexVal c2 with
    | none => some v1
    | some v2 => some (16 * v1 + v2)

/-- The hex-decoding loop of `decodeHeader`: two characters per byte, a
malformed-header failure on a non-hex pair. -/
def decodeHexPairs : List Nat → Except ZErr (List Nat)
  | [] => .ok []
  | [_] => .error .malformedHeader
  | c1 :: c2 :: rest =>
    match jsParseHex2 c1 c2 with
    | none => .error .malformedHeader
    | some b =>
      match decodeHexPairs rest with
      | .ok bs => .ok (b :: bs)
      | .error err => .error err

/-- The tail of `decodeHeader`: frame-type validation and flag
extraction (`slice(1, 5)`). -/
def headerOf (e : Enc) (headerPayload : List Nat) : Except ZErr ZHeader :=
  match frameFromByte (headerPayload.getD 0 0) with
  | .error err => .error err
  | .ok f => .ok ⟨e, f, (headerPayload.drop 1).take 4⟩

/-- Steps 2–4 of `decodeHeader` on the (hex-decoded) payload bytes:
minimum-length check, CRC trailer verification, frame validation and
flag extraction. -/
def decodePayload (e : Enc) (payload : List Nat) : Except ZErr ZHeader :=
  let crcLen := if e = .zbin32 then 4 else 2
  if payload.length < HEADER_PAYLOAD_SIZE + crcLen then .error .malformedHeader
  else
    let headerPayload := payload.take HEADER_PAYLOAD_SIZE
    let crcBytes := payload.drop HEADER_PAYLOAD_SIZE
    match e with
    | .zbin32 =>
      if crcBytes.length < 4 ∨ crcBytes.take 4 ≠ le4 (crc32IsoHdlc headerPayload) then
        .error .unexpectedCrc32
      else headerOf e headerPayload
    | _ =>
      if crcBytes.length < 2 ∨ crcBytes.take 2 ≠ be2 (crc16Xmodem headerPayload) then
        .error .unexpectedCrc16
      else headerOf e headerPayload

/-- `decodeHeader`: hex-decode for ZHEX (even length required), then
the length / CRC / frame checks of `decodePayload`. -/
def decodeHeader (e : Enc) (data : List Nat) : Except ZErr ZHeader :=
  let payloadE : Except ZErr (List Nat) :=
    match e with
    | .zhex =>
      if data.length % 2 ≠ 0 then .error .malformedHeader
      else decodeHexPairs data
    | _ => .ok data
  match payloadE with
  | .error err => .error err
  | .ok payload => decodePayload e payload

/-- `createZrinit`: buffer size in the two low flag bytes
(little-endian), capability flags in the top byte. -/
def createZrinit (bufferSize flagsByte : Nat) : ZHeader :=
  ⟨.zhex, frameZRINIT,
   [bufferSize &&& 0xFF, (bufferSize >>> 8) &&& 0xFF, 0, flagsByte % 256]⟩

/-- ZRINIT capability flag values used by the core. -/
def zrinitCANFDX : Nat := 0x01
def zrinitCANOVIO : Nat := 0x02
def zrinitCANFC32 : Nat := 0x20

/-- Canned headers from `src/lib/header.ts`. -/
def ZRQINIT_HEADER : ZHeader := ⟨.zhex, frameZRQINIT, [0, 0, 0, 0]⟩
def ZACK_HEADER : ZHeader := ⟨.zhex, frameZACK, [0, 0, 0, 0]⟩
def ZFIN_HEADER : ZHeader := ⟨.zhex, frameZFIN, [0, 0, 0, 0]⟩
def ZNAK_HEADER : ZHeader := ⟨.zhex, frameZNAK, [0, 0, 0, 0]⟩
def ZRPOS_HEADER : ZHeader := ⟨.zhex, frameZRPOS, [0, 0, 0, 0]⟩
def ZDATA_HEADER : ZHeader := ⟨.zbin32, frameZDATA, [0, 0, 0, 0]⟩
def ZEOF_HEADER : ZHeader := ⟨.zbin32, frameZEOF, [0, 0, 0, 0]⟩

/-! ## Header reader (`src/lib/transmission.ts`, class `HeaderReader`) -/

inductive HeaderReadState where
  | seekingZpad
  | readingEncoding
  | readingData
  deriving DecidableEq

inductive ZpadState where
  | idle
  | zpad
  | zpadZpad
  deriving DecidableEq

/-- The header reader's persistent state. -/
structure HR where
  state : HeaderReadState
  zpadState : ZpadState
  buf : List Nat
  encoding : Option Enc
  expectedLen : Nat
  escapePending : Bool
  deriving DecidableEq

/-- A freshly constructed (or `reset`) header reader. -/
def HR.init : HR :=
  ⟨.seekingZpad, .idle, [], none, 0, false⟩

/-- `advanceZpadState`: returns the next ZPAD substate and whether the
preamble terminator (ZDLE after one or two ZPADs) was just seen. -/
def advanceZpadState (z : ZpadState) (b : Nat) : ZpadState × Bool :=
  match z with
  | .idle => (if b = ZPAD then .zpad else .idle, false)
  | _ =>
    if b = ZDLE then (.idle, true)
    else if b = ZPAD then (.zpadZpad, false)
    else (.idle, false)

/-- The encoding-byte switch inlined in `HeaderReader.read`: only
0x41 / 0x42 / 0x43 are accepted. -/
def encByteSwitch (b : Nat) : Option Enc :=
  if b = 0x41 then some .zbin
  else if b = 0x42 then some .zhex
  else if b = 0x43 then some .zbin32
  else none

/-- The decode step at the end of `ReadingData`: a null encoding is a
malformed-header failure (with reset); `decodeHeader` failures leave the
reader state as it stands; success resets the reader and returns the
header together with the consumed count `k`. -/
def hrDecode (hr : HR) (k : Nat) :
    Except ZErr (Option (ZHeader × Nat)) × HR :=
  match hr.encoding with
  | none => (.error .malformedHeader, HR.init)
  | some e =>
    match decodeHeader e hr.buf with
    | .error err => (.error err, hr)
    | .ok h => (.ok (some (h, k)), HR.init)

/-- Adds one consumed byte to a successful completed read. -/
def bumpHr (r : Except ZErr (Option (ZHeader × Nat)) × HR) :
    Except ZErr (Option (ZHeader × Nat)) × HR :=
  match r with
  | (.ok (some (h, k)), hr) => (.ok (some (h, k + 1)), hr)
  | other => other

/-- One byte of the `SeekingZpad` state: advance the ZPAD substate and
transition to `ReadingEncoding` on the preamble terminator. -/
def hrSeekStep (hr : HR) (b : Nat) : HR :=
  let z := advanceZpadState hr.zpadState b
  if z.2 then { hr with state := .readingEncoding, zpadState := z.1 }
  else { hr with zpadState := z.1 }

/-- The state change after a valid encoding byte: move to `ReadingData`
with an empty buffer and the expected decoded length. -/
def hrEncStep (hr : HR) (e : Enc) : HR :=
  { hr with
    state := .readingData, buf := [], encoding := some e,
    expectedLen := readSize e, escapePending := false }

/-- One byte of the `ReadingData` state: the ZDLE-unescape discipline
carried across calls. -/
def hrDataStep (hr : HR) (b : Nat) : HR :=
  if hr.escapePending then
    { hr with buf := hr.buf ++ [unzdleTable b], escapePending := false }
  else if b = ZDLE then { hr with escapePending := true }
  else { hr with buf := hr.buf ++ [b] }

/-- `HeaderReader.read` over the unread suffix of the input: returns
either a failure, or `none` when the input is exhausted before a header
completes (the state persists for the next call), or a decoded header
together with the number of bytes consumed from this suffix. -/
def hrRead (hr : HR) : List Nat → Except ZErr (Option (ZHeader × Nat)) × HR
  | [] => (.ok none, hr)
  | b :: rest =>
    match hr.state with
    | .seekingZpad => bumpHr (hrRead (hrSeekStep hr b) rest)
    | .readingEncoding =>
      match encByteSwitch b with
      | none => (.error (.malformedPacket b), HR.init)
      | some e => bumpHr (hrRead (hrEncStep hr e) rest)
    | .readingData =>
      if hr.expectedLen ≤ hr.buf.length then hrDecode hr 0
      else
        if (hrDataStep hr b).expectedLen ≤ (hrDataStep hr b).buf.length then
          hrDecode (hrDataStep hr b) 1
        else bumpHr (hrRead (hrDataStep hr b) rest)

/-- A successful `hrDecode` reports exactly the consumed count it was
given. -/
theorem hrDecode_ok {hr : HR} {k0 : Nat} {h : ZHeader} {k : Nat} {hr2 : HR}
    (hk : hrDecode hr k0 = (.ok (some (h, k)), hr2)) : k = k0 := by
  unfold hrDecode at hk
  split at hk
  · simp at hk
  · split at hk
    · simp at hk
    · simp at hk
      omega

/-- Inversion for `bumpHr` on a successful completed read. -/
theorem bumpHr_ok {p : Except ZErr (Option (ZHeader × Nat)) × HR}
    {h : ZHeader} {k : Nat} {hr2 : HR}
    (hk : bumpHr p = (.ok (some (h, k)), hr2)) :
    ∃ k0, p = (.ok (some (h, k0)), hr2) ∧ k = k0 + 1 := by
  rcases p with ⟨r, hrp⟩
  match r with
  | .ok (some (h2, k2)) =>
    simp [bumpHr] at hk
    obtain ⟨⟨rfl, rfl⟩, rfl⟩ := hk
    exact ⟨k2, rfl, rfl⟩
  | .ok none => simp [bumpHr] at hk
  | .error e => simp [bumpHr] at hk

/-- The consumed count returned by `hrRead` never exceeds the input
length. -/
theorem hrRead_consumed_le (input : List Nat) :
    ∀ (hr : HR) h k hr2, hrRead hr input = (.ok (some (h, k)), hr2) →
      k ≤ input.length := by
  induction input with
  | nil => intro hr h k hr2 hk; simp [hrRead] at hk
  | cons b rest ih =>
    intro hr h k hr2 hk
    simp only [hrRead] at hk
    split at hk
    · obtain ⟨k0, hp, rfl⟩ := bumpHr_ok hk
      exact Nat.succ_le_succ (ih _ _ _ _ hp)
    · split at hk
      · simp at hk
      · obtain ⟨k0, hp, rfl⟩ := bumpHr_ok hk
        exact Nat.succ_le_succ (ih _ _ _ _ hp)
    · split at hk
      · have := hrDecode_ok hk
        omega
      · split at hk
        · have := hrDecode_ok hk
          simp [this]
        · obtain ⟨k0, hp, rfl⟩ := bumpHr_ok hk
          exact Nat.succ_le_succ (ih _ _ _ _ hp)

/-! ## Shared buffer machinery (`class Buffer` in `src/lib/transmission.ts`)

A `Buffer` holds a byte list and a capacity; `push` masks the byte to
8 bits and raises out-of-memory at capacity.  `extend` pushes one byte
at a time, so on failure the bytes pushed so far remain. -/

def extendCap (cap : Nat) : List Nat → List Nat → (Except ZErr Unit) × List Nat
  | b, [] => (.ok (), b)
  | b, x :: rest =>
    if cap ≤ b.length then (.error .outOfMemory, b)
    else extendCap cap (b ++ [x % 256]) rest

/-- Capacity of the `outgoing` buffer of both machines. -/
def OUTGOING_CAP : Nat := 2048

/-! ## Sender (`src/lib/transmission.ts`, class `Sender`) -/

/-- The ZMODEM subpacket terminator type. -/
inductive SubpacketType where
  | zcrce
  | zcrcg
  | zcrcq
  | zcrcw
  deriving DecidableEq

def SubpacketType.toByte : SubpacketType → Nat
  | .zcrce => 0x68
  | .zcrcg => 0x69
  | .zcrcq => 0x6a
  | .zcrcw => 0x6b

/-- `subpacketTypeFromByte` (its thrown `MalformedPacketError` is caught
at the use site, so an `Option` result captures the control flow). -/
def subpacketTypeFromByte (b : Nat) : Option SubpacketType :=
  if b = 0x68 then some .zcrce
  else if b = 0x69 then some .zcrcg
  else if b = 0x6a then some .zcrcq
  else if b = 0x6b then some .zcrcw
  else none

structure FileRequest where
  offset : Nat
  len : Nat
  deriving DecidableEq

inductive SenderEvent where
  | fileComplete
  | sessionComplete
  deriving DecidableEq

inductive SendState where
  | waitReceiverInit
  | readyForFile
  | waitFilePos
  | needFileData
  | waitFileAck
  | waitFileDone
  | waitFinish
  | done
  deriving DecidableEq

/-- The Sender's state.  File names are kept as their char-code byte
lists (`charCodeAt`).  The class also declares a `buf` buffer that no
Sender method ever touches; it is omitted. -/
structure SenderM where
  state : SendState
  fileName : List Nat
  fileSize : Nat
  hasFile : Bool
  pendingRequest : Option FileRequest
  frameRemaining : Nat
  frameNeedsHeader : Bool
  maxSubpacketSize : Nat
  maxSubpacketsPerAck : Nat
  outgoing : List Nat
  outgoingOffset : Nat
  headerReader : HR
  pendingEvent : Option SenderEvent
  finishRequested : Bool
  initiator : Bool
  deriving DecidableEq

def hasOutgoingS (s : SenderM) : Prop :=
  s.outgoingOffset < s.outgoing.length

instance (s : SenderM) : Decidable (hasOutgoingS s) :=
  inferInstanceAs (Decidable (_ < _))

/-- `clear` + `extend(wire)` + `outgoingOffset = 0` — the common body of
every `queueX` method.  On an out-of-memory failure the offset is left
as it was (the exception fires before the assignment). -/
def senderSetOutgoing (wire : List Nat) (s : SenderM) :
    (Except ZErr Unit) × SenderM :=
  match extendCap OUTGOING_CAP [] wire with
  | (.ok (), out) => (.ok (), { s with outgoing := out, outgoingOffset := 0 })
  | (.error e, out) => (.error e, { s with outgoing := out })

def zrqinitWire : List Nat := ZRQINIT_HEADER.encode

def senderQueueZrqinit (s : SenderM) : (Except ZErr Unit) × SenderM :=
  senderSetOutgoing zrqinitWire s

/-- The decimal ASCII digits of `n` (JavaScript `n.toString()`). -/
def natDecimal (n : Nat) : List Nat :=
  (Nat.toDigits 10 n).map Char.toNat

/-- `(crcValue >> k) & 0xFF` for `k = 0, 8, 16, 24` — the little-endian
bytes of a 32-bit CRC value as built in `queueZfile` / `queueZdata`. -/
def crc32WireBytes (v : Nat) : List Nat :=
  [v &&& 0xFF, (v >>> 8) &&& 0xFF, (v >>> 16) &&& 0xFF, (v >>> 24) &&& 0xFF]

/-- `queueZfile`: ZBIN32 ZFILE header, then the escaped
`name NUL size NUL` metadata subpacket with a ZCRCW terminator and an
escaped CRC-32 over payload + terminator. -/
def senderQueueZfile (s : SenderM) : (Except ZErr Unit) × SenderM :=
  let fileInfo := s.fileName ++ [0] ++ natDecimal s.fileSize ++ [0]
  let crcValue := Crc32.finalize (crc32Update (Crc32.update 0xFFFFFFFF fileInfo) 0x6b)
  let result := (ZHeader.mk .zbin32 frameZFILE [0, 0, 0, 0]).encode ++
    escapeBytes fileInfo ++ [ZDLE, 0x6b] ++ escapeBytes (crc32WireBytes crcValue)
  senderSetOutgoing result s

/-- `queueZdata`: optional ZDATA header at `offset`, then the escaped
data, the ZDLE-prefixed terminator byte and the escaped CRC-32 over
data + terminator. -/
def senderQueueZdata (offset : Nat) (data : List Nat) (kind : SubpacketType)
    (includeHeader : Bool) (s : SenderM) : (Except ZErr Unit) × SenderM :=
  let crcValue := Crc32.finalize (crc32Update (Crc32.update 0xFFFFFFFF data) kind.toByte)
  let result := (if includeHeader then (ZDATA_HEADER.withCount offset).encode else []) ++
    escapeBytes data ++ [ZDLE, kind.toByte] ++ escapeBytes (crc32WireBytes crcValue)
  senderSetOutgoing result s

def senderQueueZeof (offset : Nat) (s : SenderM) : (Except ZErr Unit) × SenderM :=
  senderSetOutgoing (ZEOF_HEADER.withCount offset).encode s

def senderQueueZfin (s : SenderM) : (Except ZErr Unit) × SenderM :=
  senderSetOutgoing ZFIN_HEADER.encode s

def senderQueueNak (s : SenderM) : (Except ZErr Unit) × SenderM :=
  senderSetOutgoing ZNAK_HEADER.encode s

def senderQueueOo (s : SenderM) : (Except ZErr Unit) × SenderM :=
  senderSetOutgoing [0x4f, 0x4f] s

/-- A fresh Sender; an initiating Sender queues ZRQINIT. -/
def senderNew (initiator : Bool) : SenderM :=
  let base : SenderM :=
    { state := .waitReceiverInit, fileName := [], fileSize := 0, hasFile := false,
      pendingRequest := none, frameRemaining := 0, frameNeedsHeader := false,
      maxSubpacketSize := SUBPACKET_MAX_SIZE, maxSubpacketsPerAck := SUBPACKET_PER_ACK,
      outgoing := [], outgoingOffset := 0, headerReader := HR.init,
      pendingEvent := none, finishRequested := false, initiator := initiator }
  if initiator then (senderQueueZrqinit base).2 else base

/-- `Sender.startFile`. -/
def startFile (fileName : List Nat) (fileSize : Nat) (s : SenderM) :
    (Except ZErr Unit) × SenderM :=
  if s.state = .done ∨ s.state = .waitFinish ∨
      (s.state ≠ .waitReceiverInit ∧ s.state ≠ .readyForFile) then
    (.error .unsupported, s)
  else
    let s1 := { s with
      fileName := fileName, fileSize := fileSize, hasFile := true,
      pendingRequest := none, frameRemaining := 0, frameNeedsHeader := false }
    if s1.state = .readyForFile then
      if hasOutgoingS s1 then (.error .unsupported, s1)
      else
        match senderQueueZfile s1 with
        | (.ok (), s2) => (.ok (), { s2 with state := .waitFilePos })
        | (.error e, s2) => (.error e, s2)
    else (.ok (), s1)

/-- `Sender.finishSession`. -/
def finishSession (s : SenderM) : (Except ZErr Unit) × SenderM :=
  let s1 := { s with finishRequested := true }
  if s1.state = .readyForFile then
    if hasOutgoingS s1 then (.error .unsupported, s1)
    else
      match senderQueueZfin s1 with
      | (.ok (), s2) => (.ok (), { s2 with state := .waitFinish })
      | (.error e, s2) => (.error e, s2)
  else (.ok (), s1)

/-- `Sender.feedFile`. -/
def feedFile (s : SenderM) (data : List Nat) : (Except ZErr Unit) × SenderM :=
  if s.state ≠ .needFileData then (.error .unsupported, s)
  else
    match s.pendingRequest with
    | none => (.error .unsupported, s)
    | some request =>
      if data.length = 0 then (.error .unexpectedEof, s)
      else if request.len < data.length then (.error .unexpectedEof, s)
      else if s.fileSize - request.offset < data.length then (.error .unexpectedEof, s)
      else if hasOutgoingS s then (.error .unsupported, s)
      else
        let offset := request.offset
        let nextOffset := offset + data.length
        let remainingAfter := s.fileSize - nextOffset
        let maxLen := min s.maxSubpacketSize remainingAfter
        let isLastInFrame : Bool :=
          s.frameRemaining ≤ 1 ∨ data.length < request.len ∨ remainingAfter = 0
        let kind := if isLastInFrame then SubpacketType.zcrcw else SubpacketType.zcrcg
        match senderQueueZdata offset data kind s.frameNeedsHeader s with
        | (.error e, s2) => (.error e, s2)
        | (.ok (), s2) =>
          let s3 := { s2 with frameNeedsHeader := false }
          let s4 :=
            if 0 < s3.frameRemaining then { s3 with frameRemaining := s3.frameRemaining - 1 }
            else s3
          if isLastInFrame then
            (.ok (), { s4 with
              pendingRequest := none, state := .waitFileAck, frameRemaining := 0 })
          else (.ok (), { s4 with pendingRequest := some ⟨nextOffset, maxLen⟩ })

/-- `Sender.updateReceiverCaps`: negotiate `maxSubpacketSize` and
`maxSubpacketsPerAck` from the ZRINIT flag bytes. -/
def updateReceiverCaps (h : ZHeader) (s : SenderM) : SenderM :=
  let rxBufSize := h.flags.getD 0 0 ||| (h.flags.getD 1 0 <<< 8)
  let caps := h.flags.getD 2 0 ||| (h.flags.getD 3 0 <<< 8)
  let canOvio := caps &&& zrinitCANOVIO ≠ 0
  if rxBufSize = 0 then
    { s with
      maxSubpacketSize := SUBPACKET_MAX_SIZE,
      maxSubpacketsPerAck := if canOvio then SUBPACKET_PER_ACK else 1 }
  else
    let maxSize := min SUBPACKET_MAX_SIZE rxBufSize
    if ¬canOvio then
      { s with maxSubpacketSize := maxSize, maxSubpacketsPerAck := 1 }
    else
      let subpackets := rxBufSize / maxSize
      { s with
        maxSubpacketSize := maxSize,
        maxSubpacketsPerAck := if subpackets = 0 then 1 else subpackets }

/-- `Sender.onZrinit`. -/
def onZrinit (h : ZHeader) (s : SenderM) : (Except ZErr Unit) × SenderM :=
  let s0 := updateReceiverCaps h s
  match s0.state with
  | .waitReceiverInit =>
    if s0.hasFile then
      match senderQueueZfile s0 with
      | (.ok (), s1) => (.ok (), { s1 with state := .waitFilePos })
      | err => err
    else
      let s1 := { s0 with state := .readyForFile }
      if s1.finishRequested then
        match senderQueueZfin s1 with
        | (.ok (), s2) => (.ok (), { s2 with state := .waitFinish })
        | err => err
      else (.ok (), s1)
  | .waitFileDone =>
    let s1 := { s0 with pendingEvent := some .fileComplete, hasFile := false }
    if s1.finishRequested then
      match senderQueueZfin s1 with
      | (.ok (), s2) => (.ok (), { s2 with state := .waitFinish })
      | err => err
    else (.ok (), { s1 with state := .readyForFile })
  | .waitFinish =>
    match senderQueueOo s0 with
    | (.ok (), s1) =>
      (.ok (), { s1 with state := .done, pendingEvent := some .sessionComplete })
    | err => err
  | _ => (.ok (), s0)

/-- `Sender.onZrpos` (also handles ZACK). -/
def onZrpos (offset : Nat) (s : SenderM) : (Except ZErr Unit) × SenderM :=
  match s.state with
  | .waitReceiverInit => senderQueueZrqinit s
  | .waitFilePos | .waitFileAck | .needFileData =>
    if s.fileSize ≤ offset then
      match senderQueueZeof offset s with
      | (.ok (), s1) =>
        (.ok (), { s1 with state := .waitFileDone, pendingRequest := none })
      | err => err
    else
      let remaining := s.fileSize - offset
      let maxSubpackets := (remaining + s.maxSubpacketSize - 1) / s.maxSubpacketSize
      (.ok (), { s with
        frameRemaining := min s.maxSubpacketsPerAck maxSubpackets,
        frameNeedsHeader := true,
        pendingRequest := some ⟨offset, min s.maxSubpacketSize remaining⟩,
        state := .needFileData })
  | _ => (.ok (), s)

/-- `Sender.onZfin`. -/
def onZfin (s : SenderM) : (Except ZErr Unit) × SenderM :=
  if s.state = .waitFinish then
    match senderQueueOo s with
    | (.ok (), s1) =>
      (.ok (), { s1 with state := .done, pendingEvent := some .sessionComplete })
    | err => err
  else (.ok (), s)

/-- `Sender.handleHeader` dispatch. -/
def senderHandleHeader (h : ZHeader) (s : SenderM) : (Except ZErr Unit) × SenderM :=
  if h.frame = frameZRINIT then onZrinit h s
  else if h.frame = frameZRPOS ∨ h.frame = frameZACK then onZrpos h.count s
  else if h.frame = frameZFIN then onZfin s
  else if s.state = .waitReceiverInit then senderQueueZrqinit s
  else (.ok (), s)

/-- The `while (true)` loop of `Sender.feedIncoming`: stops at once on
outgoing backpressure, terminal state or a pending file request; reads
headers from the unread suffix and dispatches them. -/
def senderFeedLoop (input : List Nat) (s : SenderM) (consumed : Nat) :
    (Except ZErr Nat) × SenderM :=
  if hasOutgoingS s ∨ s.state = .done ∨ s.pendingRequest.isSome then (.ok consumed, s)
  else
    match hres : hrRead s.headerReader (input.drop consumed) with
    | (.error e, hr2) => (.error e, { s with headerReader := hr2 })
    | (.ok none, hr2) => (.ok consumed, { s with headerReader := hr2 })
    | (.ok (some (hd, c)), hr2) =>
      let s1 := { s with headerReader := hr2 }
      match senderHandleHeader hd s1 with
      | (.error e, s2) => (.error e, s2)
      | (.ok (), s2) =>
        if hstop : consumed + c = consumed ∨ consumed + c = input.length then
          (.ok (consumed + c), s2)
        else senderFeedLoop input s2 (consumed + c)
termination_by input.length - consumed
decreasing_by
  have hle := hrRead_consumed_le _ _ _ _ _ hres
  simp only [List.length_drop] at hle
  omega

/-- `Sender.feedIncoming`. -/
def senderFeedIncoming (s : SenderM) (input : List Nat) :
    (Except ZErr Nat) × SenderM :=
  senderFeedLoop input s 0

/-! ## Receiver (`src/lib/transmission.ts`, class `Receiver`) -/

inductive ReceiverEvent where
  | fileStart
  | fileComplete
  | sessionComplete
  deriving DecidableEq

inductive SubpacketState where
  | idle
  | reading
  | writing
  | crc
  deriving DecidableEq

inductive RecvState where
  | sessionBegin
  | fileBegin
  | fileReadingMetadata
  | fileReadingSubpacket
  | fileWaitingSubpacket
  | sessionEnd
  deriving DecidableEq

/-- The Receiver's state.  The pending-event FIFO is the 4-slot ring
buffer of the class (`pendingEvents` array plus head and length). -/
structure RecvM where
  state : RecvState
  count : Nat
  fileName : List Nat
  fileSize : Nat
  buf : List Nat
  bufWriteOffset : Nat
  dataEncoding : Enc
  headerReader : HR
  subpacketState : SubpacketState
  subpacketType : SubpacketType
  subpacketEscapePending : Bool
  crcEscapePending : Bool
  crcBytesRead : Nat
  crcBuf : List Nat
  crc16 : Nat
  crc32 : Nat
  outgoing : List Nat
  outgoingOffset : Nat
  pendingEvents : List (Option ReceiverEvent)
  pendingEventHead : Nat
  pendingEventLen : Nat
  deriving DecidableEq

def hasOutgoingR (r : RecvM) : Prop :=
  r.outgoingOffset < r.outgoing.length

instance (r : RecvM) : Decidable (hasOutgoingR r) :=
  inferInstanceAs (Decidable (_ < _))

def hasFileData (r : RecvM) : Prop :=
  r.subpacketState = .writing

instance (r : RecvM) : Decidable (hasFileData r) :=
  inferInstanceAs (Decidable (_ = _))

def pendingEventsFull (r : RecvM) : Prop :=
  4 ≤ r.pendingEventLen

instance (r : RecvM) : Decidable (pendingEventsFull r) :=
  inferInstanceAs (Decidable (_ ≤ _))

/-- `pushEvent`: append to the 4-slot ring, out-of-memory when full. -/
def pushEvent (ev : ReceiverEvent) (r : RecvM) : (Except ZErr Unit) × RecvM :=
  if 4 ≤ r.pendingEventLen then (.error .outOfMemory, r)
  else
    (.ok (), { r with
      pendingEvents :=
        r.pendingEvents.set ((r.pendingEventHead + r.pendingEventLen) % 4) (some ev),
      pendingEventLen := r.pendingEventLen + 1 })

/-- `popEvent` (the body of `pollEvent`). -/
def popEvent (r : RecvM) : Option ReceiverEvent × RecvM :=
  if r.pendingEventLen = 0 then (none, r)
  else
    (r.pendingEvents.getD r.pendingEventHead none,
     { r with
       pendingEvents := r.pendingEvents.set r.pendingEventHead none,
       pendingEventHead := (r.pendingEventHead + 1) % 4,
       pendingEventLen := r.pendingEventLen - 1 })

def recvSetOutgoing (wire : List Nat) (r : RecvM) : (Except ZErr Unit) × RecvM :=
  match extendCap OUTGOING_CAP [] wire with
  | (.ok (), out) => (.ok (), { r with outgoing := out, outgoingOffset := 0 })
  | (.error e, out) => (.error e, { r with outgoing := out })

/-- The initial ZRINIT wire bytes: buffer size `SUBPACKET_MAX_SIZE`,
capabilities CANFDX | CANFC32. -/
def zrinitWire : List Nat :=
  (createZrinit SUBPACKET_MAX_SIZE (zrinitCANFDX ||| zrinitCANFC32)).encode

def zrposWire (count : Nat) : List Nat := (ZRPOS_HEADER.withCount count).encode

def zackWire (count : Nat) : List Nat := (ZACK_HEADER.withCount count).encode

def recvQueueZrinit (r : RecvM) : (Except ZErr Unit) × RecvM :=
  recvSetOutgoing zrinitWire r

def recvQueueZrpos (count : Nat) (r : RecvM) : (Except ZErr Unit) × RecvM :=
  recvSetOutgoing (zrposWire count) r

/-- `queueZack` reads `this.count`, i.e. the count already updated by
`finishSubpacket`. -/
def recvQueueZack (r : RecvM) : (Except ZErr Unit) × RecvM :=
  recvSetOutgoing (zackWire r.count) r

def recvQueueZfin (r : RecvM) : (Except ZErr Unit) × RecvM :=
  recvSetOutgoing ZFIN_HEADER.encode r

def recvQueueNak (r : RecvM) : (Except ZErr Unit) × RecvM :=
  recvSetOutgoing ZNAK_HEADER.encode r

/-- `resetCrc`: fresh CRC-16 and CRC-32 accumulators, clear the CRC
escape state, counter and partial-byte buffer. -/
def resetCrc (r : RecvM) : RecvM :=
  { r with
    crc16 := 0x0000, crc32 := 0xFFFFFFFF, crcEscapePending := false,
    crcBytesRead := 0, crcBuf := [] }

/-- `updateCrc`: feed one byte to the accumulator selected by the
current data encoding. -/
def updateCrc (byte : Nat) (r : RecvM) : RecvM :=
  if r.dataEncoding = .zbin32 then { r with crc32 := crc32Update r.crc32 byte }
  else { r with crc16 := crc16Update r.crc16 byte }

/-- A fresh Receiver: initial state with the ZRINIT header queued. -/
def receiverNew : RecvM :=
  let base : RecvM :=
    { state := .sessionBegin, count := 0, fileName := [], fileSize := 0,
      buf := [], bufWriteOffset := 0, dataEncoding := .zbin,
      headerReader := HR.init, subpacketState := .idle,
      subpacketType := .zcrcg, subpacketEscapePending := false,
      crcEscapePending := false, crcBytesRead := 0, crcBuf := [],
      crc16 := 0x0000, crc32 := 0xFFFFFFFF, outgoing := [], outgoingOffset := 0,
      pendingEvents := [none, none, none, none], pendingEventHead := 0,
      pendingEventLen := 0 }
  (recvQueueZrinit base).2

/-- `Receiver.handleHeader` dispatch. -/
def recvHandleHeader (h : ZHeader) (r : RecvM) : (Except ZErr Unit) × RecvM :=
  if h.frame = frameZRQINIT then
    if r.state = .sessionBegin then recvQueueZrinit r else (.ok (), r)
  else if h.frame = frameZFILE then
    if r.state = .sessionBegin ∨ r.state = .fileBegin then
      (.ok (), resetCrc { r with
        dataEncoding := h.encoding, state := .fileReadingMetadata,
        subpacketState := .reading, subpacketEscapePending := false,
        buf := [], bufWriteOffset := 0 })
    else (.ok (), r)
  else if h.frame = frameZDATA then
    if r.state = .sessionBegin then recvQueueZrinit r
    else if r.state = .fileBegin ∨ r.state = .fileWaitingSubpacket then
      if h.count ≠ r.count then recvQueueZrpos r.count r
      else
        (.ok (), resetCrc { r with
          dataEncoding := h.encoding, state := .fileReadingSubpacket,
          subpacketState := .reading, subpacketEscapePending := false,
          buf := [], bufWriteOffset := 0 })
    else (.ok (), r)
  else if h.frame = frameZEOF then
    if r.state = .fileWaitingSubpacket ∧ h.count = r.count then
      match recvQueueZrinit r with
      | (.ok (), r1) => pushEvent .fileComplete { r1 with state := .fileBegin }
      | err => err
    else (.ok (), r)
  else if h.frame = frameZFIN then
    if r.state = .fileWaitingSubpacket ∨ r.state = .fileBegin then
      match recvQueueZfin r with
      | (.ok (), r1) => pushEvent .sessionComplete { r1 with state := .sessionEnd }
      | err => err
    else (.ok (), r)
  else (.ok (), r)

/-- Split a payload on NUL bytes, keeping a trailing non-empty field
(the loop of `parseZfileBuf`). -/
def splitNul (current : List Nat) : List Nat → List (List Nat)
  | [] => if 0 < current.length then [current] else []
  | b :: rest =>
    if b = 0 then current :: splitNul [] rest
    else splitNul (current ++ [b]) rest

def decDigit (c : Nat) : Option Nat :=
  if 0x30 ≤ c ∧ c ≤ 0x39 then some (c - 0x30) else none

def decPrefixVal (acc : Nat) : List Nat → Nat
  | [] => acc
  | c :: rest =>
    match decDigit c with
    | some d => decPrefixVal (acc * 10 + d) rest
    | none => acc

/-- `parseInt(s, 10)` on the size field: `none` (NaN) unless the field
starts with a decimal digit, otherwise the value of the leading digit
run.  (`parseInt`'s whitespace/sign handling is not modelled; it is not
reachable from the claims settled here.) -/
def jsParseDecimal : List Nat → Option Nat
  | [] => none
  | c :: rest => (decDigit c).map fun d => decPrefixVal d rest

/-- `parseZfileBuf`: split the metadata payload on NULs, take the file
name from field 0 and the decimal size prefix (up to a space) from
field 1; `count` is reset to 0 on success. -/
def parseZfile (r : RecvM) : (Except ZErr Unit) × RecvM :=
  let fields := splitNul [] r.buf
  if fields.length = 0 ∨ (fields.getD 0 []).length = 0 then
    (.error .malformedFileName, r)
  else
    let r1 := { r with fileName := fields.getD 0 [] }
    if 1 < fields.length then
      let sizeField := fields.getD 1 []
      let sizeBytes :=
        match sizeField.findIdx? (fun b => b = 0x20) with
        | some i => sizeField.take i
        | none => sizeField
      match jsParseDecimal sizeBytes with
      | none => (.error .malformedFileSize, r1)
      | some n => (.ok (), { r1 with fileSize := n, count := 0 })
    else (.ok (), { r1 with fileSize := 0, count := 0 })

/-- `Receiver.finishSubpacket`: add the payload length to `count`,
reset buffer and CRC, then ack / transition by terminator type. -/
def finishSubpacket (packet : SubpacketType) (r : RecvM) :
    (Except ZErr Unit) × RecvM :=
  let r1 := resetCrc { r with
    count := r.count + r.buf.length, buf := [], bufWriteOffset := 0 }
  match packet with
  | .zcrcw =>
    match recvQueueZack r1 with
    | (.ok (), r2) =>
      (.ok (), { r2 with
        state := .fileWaitingSubpacket, subpacketState := .idle,
        subpacketEscapePending := false })
    | err => err
  | .zcrcq =>
    match recvQueueZack r1 with
    | (.ok (), r2) =>
      (.ok (), { r2 with subpacketState := .reading, subpacketEscapePending := false })
    | err => err
  | .zcrcg =>
    (.ok (), { r1 with subpacketState := .reading, subpacketEscapePending := false })
  | .zcrce =>
    (.ok (), { r1 with
      state := .fileWaitingSubpacket, subpacketState := .idle,
      subpacketEscapePending := false })

/-- The inner CRC-collection loop of `processSubpacket` (`Crc` case):
unescape bytes into `crcBuf` until `crcLen` bytes are read or the input
runs out, with the dedicated `crcEscapePending` flag. -/
def crcCollect (crcLen : Nat) (r : RecvM) : List Nat → Nat × RecvM
  | [] => (0, r)
  | b :: rest =>
    if crcLen ≤ r.crcBytesRead then (0, r)
    else if r.crcEscapePending then
      let p := crcCollect crcLen { r with
        crcEscapePending := false, crcBuf := r.crcBuf ++ [unzdleTable b],
        crcBytesRead := r.crcBytesRead + 1 } rest
      (p.1 + 1, p.2)
    else if b = ZDLE then
      let p := crcCollect crcLen { r with crcEscapePending := true } rest
      (p.1 + 1, p.2)
    else
      let p := crcCollect crcLen { r with
        crcBuf := r.crcBuf ++ [b], crcBytesRead := r.crcBytesRead + 1 } rest
      (p.1 + 1, p.2)

theorem crcCollect_consumed_le (crcLen : Nat) (input : List Nat) :
    ∀ r : RecvM, (crcCollect crcLen r input).1 ≤ input.length := by
  induction input with
  | nil => intro r; simp [crcCollect]
  | cons b rest ih =>
    intro r
    simp only [crcCollect]
    split
    · simp
    · split
      · simpa using Nat.succ_le_succ (ih _)
      · split
        · simpa using Nat.succ_le_succ (ih _)
        · simpa using Nat.succ_le_succ (ih _)

/-- Adds one consumed byte to a successful subpacket-step result. -/
def bumpSp (p : (Except ZErr (Nat × Bool)) × RecvM) :
    (Except ZErr (Nat × Bool)) × RecvM :=
  match p with
  | (.ok (c, d), r) => (.ok (c + 1, d), r)
  | other => other

/-- The CRC-verification / completion step of the `Crc` case, entered
once `crcLen` unescaped CRC bytes are available; `c` is the consumed
count reported on success. -/
def spVerify (c : Nat) (r1 : RecvM) : (Except ZErr (Nat × Bool)) × RecvM :=
  let ok32 :=
    Crc32.finalize r1.crc32 % 2 ^ 32 = le32 r1.crcBuf
  let ok16 :=
    Crc16.finalize r1.crc16 = ((r1.crcBuf.getD 0 0) <<< 8) ||| r1.crcBuf.getD 1 0
  if r1.dataEncoding = .zbin32 ∧ ¬ok32 then (.error .unexpectedCrc32, r1)
  else if r1.dataEncoding ≠ .zbin32 ∧ ¬ok16 then (.error .unexpectedCrc16, r1)
  else if r1.state = .fileReadingMetadata then
    match parseZfile r1 with
    | (.error e, r2) => (.error e, r2)
    | (.ok (), r2) =>
      let r3 := resetCrc { r2 with
        buf := [], bufWriteOffset := 0, subpacketEscapePending := false }
      match recvQueueZrpos 0 r3 with
      | (.ok (), r4) =>
        match pushEvent .fileStart
            { r4 with state := .fileBegin, subpacketState := .idle } with
        | (.ok (), r5) => (.ok (c, true), r5)
        | (.error e, r5) => (.error e, r5)
      | (.error e, r4) => (.error e, r4)
  else
    let r2 := { r1 with subpacketState := .writing, bufWriteOffset := 0 }
    if r2.buf.length = 0 then
      match finishSubpacket r2.subpacketType r2 with
      | (.ok (), r3) => (.ok (c, true), r3)
      | (.error e, r3) => (.error e, r3)
    else (.ok (c, true), r2)

/-- `Receiver.processSubpacket` over the unread suffix: returns the
consumed count and a done flag (done = a subpacket boundary or writable
payload was reached), or a failure. -/
def processSubpacket (r : RecvM) : List Nat → (Except ZErr (Nat × Bool)) × RecvM
  | [] => (.ok (0, false), r)
  | b :: rest =>
    match r.subpacketState with
    | .reading =>
      if r.subpacketEscapePending then
        let r0 := { r with subpacketEscapePending := false }
        match subpacketTypeFromByte b with
        | some pt =>
          let r1 := updateCrc pt.toByte
            { r0 with subpacketType := pt, subpacketState := .crc }
          bumpSp (processSubpacket r1 rest)
        | none =>
          let u := unzdleTable b
          if SUBPACKET_MAX_SIZE ≤ r0.buf.length then (.error .outOfMemory, r0)
          else
            bumpSp (processSubpacket
              (updateCrc u { r0 with buf := r0.buf ++ [u % 256] }) rest)
      else if b = ZDLE then
        bumpSp (processSubpacket { r with subpacketEscapePending := true } rest)
      else
        if SUBPACKET_MAX_SIZE ≤ r.buf.length then (.error .outOfMemory, r)
        else
          bumpSp (processSubpacket
            (updateCrc b { r with buf := r.buf ++ [b % 256] }) rest)
    | .crc =>
      let crcLen := if r.dataEncoding = .zbin32 then 4 else 2
      let p := crcCollect crcLen r (b :: rest)
      if p.2.crcBytesRead < crcLen then (.ok (p.1, false), p.2)
      else spVerify p.1 p.2
    | .writing => (.ok (0, true), r)
    | .idle => (.error .unsupported, r)

/-- On success, `spVerify` reports exactly the consumed count it was
given. -/
theorem spVerify_consumed {c : Nat} {r1 : RecvM} {c2 : Nat} {d : Bool} {r2 : RecvM}
    (hk : spVerify c r1 = (.ok (c2, d), r2)) : c2 = c := by
  simp only [spVerify] at hk
  repeat' split at hk
  all_goals simp at hk
  all_goals omega

/-- Inversion for `bumpSp` on a successful step. -/
theorem bumpSp_ok {p : (Except ZErr (Nat × Bool)) × RecvM}
    {c : Nat} {d : Bool} {r2 : RecvM}
    (hk : bumpSp p = (.ok (c, d), r2)) :
    ∃ c0, p = (.ok (c0, d), r2) ∧ c = c0 + 1 := by
  rcases p with ⟨res, rp⟩
  match res with
  | .ok (c0, d0) =>
    simp [bumpSp] at hk
    obtain ⟨⟨rfl, rfl⟩, rfl⟩ := hk
    exact ⟨c0, rfl, rfl⟩
  | .error e => simp [bumpSp] at hk

/-- The consumed count returned by `processSubpacket` never exceeds the
input length. -/
theorem processSubpacket_consumed_le (input : List Nat) :
    ∀ (r : RecvM) c d r2, processSubpacket r input = (.ok (c, d), r2) →
      c ≤ input.length := by
  induction input with
  | nil => intro r c d r2 hk; simp [processSubpacket] at hk; omega
  | cons b rest ih =>
    intro r c d r2 hk
    simp only [processSubpacket] at hk
    split at hk
    · split at hk
      · split at hk
        · obtain ⟨c0, hp, rfl⟩ := bumpSp_ok hk
          exact Nat.succ_le_succ (ih _ _ _ _ hp)
        · split at hk
          · simp at hk
          · obtain ⟨c0, hp, rfl⟩ := bumpSp_ok hk
            exact Nat.succ_le_succ (ih _ _ _ _ hp)
      · split at hk
        · obtain ⟨c0, hp, rfl⟩ := bumpSp_ok hk
          exact Nat.succ_le_succ (ih _ _ _ _ hp)
        · split at hk
          · simp at hk
          · obtain ⟨c0, hp, rfl⟩ := bumpSp_ok hk
            exact Nat.succ_le_succ (ih _ _ _ _ hp)
    · generalize hC : (if r.dataEncoding = Enc.zbin32 then 4 else 2) = cl at hk
      generalize hP : crcCollect cl r (b :: rest) = P at hk
      have hPle : P.1 ≤ (b :: rest).length := by
        rw [← hP]; exact crcCollect_consumed_le cl (b :: rest) r
      split at hk
      · simp at hk
        omega
      · have hv := spVerify_consumed hk
        omega
    · simp at hk
      omega
    · simp at hk

/-- The `while (true)` loop of `Receiver.feedIncoming`. -/
def recvFeedLoop (input : List Nat) (r : RecvM) (consumed : Nat) :
    (Except ZErr Nat) × RecvM :=
  if hasFileData r ∨ pendingEventsFull r then (.ok consumed, r)
  else if r.state = .fileReadingSubpacket ∨ r.state = .fileReadingMetadata then
    match pres : processSubpacket r (input.drop consumed) with
    | (.error e, r2) => (.error e, r2)
    | (.ok (c, false), r2) => (.ok (consumed + c), r2)
    | (.ok (c, true), r2) =>
      if hasOutgoingR r2 ∨ hasFileData r2 ∨ pendingEventsFull r2 then
        (.ok (consumed + c), r2)
      else if hstop : c = 0 then (.ok (consumed + c), r2)
      else recvFeedLoop input r2 (consumed + c)
  else
    match hres : hrRead r.headerReader (input.drop consumed) with
    | (.error e, hr2) => (.error e, { r with headerReader := hr2 })
    | (.ok none, hr2) => (.ok consumed, { r with headerReader := hr2 })
    | (.ok (some (hd, c)), hr2) =>
      let r1 := { r with headerReader := hr2 }
      match recvHandleHeader hd r1 with
      | (.error e, r2) => (.error e, r2)
      | (.ok (), r2) =>
        if pendingEventsFull r2 then (.ok (consumed + c), r2)
        else if hasOutgoingR r2 then (.ok (consumed + c), r2)
        else if hstop2 : consumed + c = consumed ∨ consumed + c = input.length then
          (.ok (consumed + c), r2)
        else recvFeedLoop input r2 (consumed + c)
termination_by input.length - consumed
decreasing_by
  · have := processSubpacket_consumed_le (input.drop consumed) _ _ _ _ pres
    simp only [List.length_drop] at this
    omega
  · have := hrRead_consumed_le (input.drop consumed) _ _ _ _ hres
    simp only [List.length_drop] at this
    omega

/-- `Receiver.feedIncoming`. -/
def recvFeedIncoming (r : RecvM) (input : List Nat) :
    (Except ZErr Nat) × RecvM :=
  recvFeedLoop input r 0

/-! ## C1 — the backpressure entry guard -/

/-- A complete ZHEX ZFILE header on the wire (18 header bytes are read
before the CR LF XON trailer). -/
def zfileHexWire : List Nat := (ZHeader.mk .zhex frameZFILE [0, 0, 0, 0]).encode

set_option maxRecDepth 10000 in
/-- C1 counterexample: a freshly constructed Receiver has a non-empty
outgoing buffer (the initial ZRINIT), yet `feed_incoming` on a ZFILE
header consumes 18 bytes and moves the state to `FileReadingMetadata` —
the claimed zero-consumption backpressure rule fails for the
Receiver. -/
theorem receiver_backpressure_counterexample :
    hasOutgoingR receiverNew ∧
    receiverNew.state = RecvState.sessionBegin ∧
    (recvFeedIncoming receiverNew zfileHexWire).1 = Except.ok 18 ∧
    (recvFeedIncoming receiverNew zfileHexWire).2.state = RecvState.fileReadingMetadata := by
  refine ⟨by decide, by decide, ?_, ?_⟩ <;>
  · rw [recvFeedIncoming, recvFeedLoop.eq_def]
    decide

/-- C1 (amended): for the Sender, whenever the outgoing buffer is
non-empty at the start of `feed_incoming`, the call consumes zero input
bytes and leaves every state field unchanged.  (The Receiver has no
such entry guard: it applies backpressure only after a header is
handled — see the counterexample.) -/
theorem sender_backpressure_amended (s : SenderM) (input : List Nat)
    (h : hasOutgoingS s) :
    senderFeedIncoming s input = (.ok 0, s) := by
  rw [senderFeedIncoming, senderFeedLoop.eq_def]
  simp [h]

set_option maxRecDepth 10000 in
theorem sender_backpressure_amended_witness :
    hasOutgoingS (senderNew true) ∧
    senderFeedIncoming (senderNew true) [0x2a] = (.ok 0, senderNew true) :=
  ⟨by decide, sender_backpressure_amended (senderNew true) [0x2a] (by decide)⟩

/-! ## C2 — ZRINIT capability negotiation -/

set_option maxRecDepth 10000 in
/-- C2 counterexample: for ZRINIT flags `[0, 0, 2, 2]`
(`rx_buf_size = 0`, CANOVIO set), the code sets
`max_subpackets_per_ack = 200` (`SUBPACKET_PER_ACK`), not the 1 the
claim requires (`floor(rx_buf_size / max_subpacket_size)` clamped to at
least 1 gives 1 whether `rx_buf_size` is read as 0 or as the
substituted `SUBPACKET_MAX_SIZE`). -/
theorem updateReceiverCaps_counterexample :
    (updateReceiverCaps ⟨.zhex, frameZRINIT, [0, 0, 2, 2]⟩
      (senderNew true)).maxSubpacketsPerAck = 200 ∧
    (updateReceiverCaps ⟨.zhex, frameZRINIT, [0, 0, 2, 2]⟩
      (senderNew true)).maxSubpacketsPerAck ≠ 1 := by
  constructor <;> decide

/-- C2 (amended): on ZRINIT, `max_subpacket_size` becomes
`min(SUBPACKET_MAX_SIZE, rx_buf_size)` with `rx_buf_size = 0` treated
as `SUBPACKET_MAX_SIZE`, where `rx_buf_size` is the little-endian
16-bit value in the two low flag bytes; `max_subpackets_per_ack`
becomes, when CANOVIO (bit 0x02 of `flags[2] | flags[3] << 8`) is set,
`SUBPACKET_PER_ACK` for `rx_buf_size = 0` and otherwise
`floor(rx_buf_size / max_subpacket_size)` clamped to at least 1; and 1
when CANOVIO is clear.  It is never less than 1. -/
theorem updateReceiverCaps_amended (f0 f1 f2 f3 : Nat) (e : Enc) (fr : Nat)
    (s : SenderM) (h0 : f0 < 256) (h1 : f1 < 256) (h2 : f2 < 256) (h3 : f3 < 256) :
    (updateReceiverCaps ⟨e, fr, [f0, f1, f2, f3]⟩ s).maxSubpacketSize =
      (if f0 ||| (f1 <<< 8) = 0 then SUBPACKET_MAX_SIZE
       else min SUBPACKET_MAX_SIZE (f0 ||| (f1 <<< 8))) ∧
    (updateReceiverCaps ⟨e, fr, [f0, f1, f2, f3]⟩ s).maxSubpacketsPerAck =
      (if ((f2 ||| (f3 <<< 8)) &&& zrinitCANOVIO) ≠ 0 then
        (if f0 ||| (f1 <<< 8) = 0 then SUBPACKET_PER_ACK
         else max 1 ((f0 ||| (f1 <<< 8)) / min SUBPACKET_MAX_SIZE (f0 ||| (f1 <<< 8))))
       else 1) ∧
    1 ≤ (updateReceiverCaps ⟨e, fr, [f0, f1, f2, f3]⟩ s).maxSubpacketsPerAck := by
  unfold updateReceiverCaps
  simp only [List.getD_cons_zero, List.getD_cons_succ]
  split_ifs <;> simp_all [SUBPACKET_PER_ACK] <;>
    first
    | omega
    | exact Nat.pos_of_ne_zero (by assumption)

set_option maxRecDepth 10000 in
theorem updateReceiverCaps_amended_witness :
    (updateReceiverCaps ⟨Enc.zhex, frameZRINIT, [0, 4, 0, 0x23]⟩
        (senderNew true)).maxSubpacketSize =
      (if (0 : Nat) ||| (4 <<< 8) = 0 then SUBPACKET_MAX_SIZE
       else min SUBPACKET_MAX_SIZE ((0 : Nat) ||| (4 <<< 8))) ∧
    (updateReceiverCaps ⟨Enc.zhex, frameZRINIT, [0, 4, 0, 0x23]⟩
        (senderNew true)).maxSubpacketsPerAck =
      (if (((0 : Nat) ||| (0x23 <<< 8)) &&& zrinitCANOVIO) ≠ 0 then
        (if (0 : Nat) ||| (4 <<< 8) = 0 then SUBPACKET_PER_ACK
         else max 1 (((0 : Nat) ||| (4 <<< 8)) /
           min SUBPACKET_MAX_SIZE ((0 : Nat) ||| (4 <<< 8))))
       else 1) ∧
    1 ≤ (updateReceiverCaps ⟨Enc.zhex, frameZRINIT, [0, 4, 0, 0x23]⟩
        (senderNew true)).maxSubpacketsPerAck :=
  updateReceiverCaps_amended 0 4 0 0x23 Enc.zhex frameZRINIT (senderNew true)
    (by decide) (by decide) (by decide) (by decide)

/-! ## C3 — rejection of a bad encoding byte -/

/-- C3 counterexample: after the `ZPAD ZPAD ZDLE` preamble, the byte
0x44 raises a failure of the MalformedPacket kind, not the
MalformedEncoding kind the claim names. -/
theorem encoding_reject_counterexample :
    (hrRead HR.init [0x2a, 0x2a, 0x18, 0x44]).1 =
      .error (.malformedPacket 0x44) ∧
    (hrRead HR.init [0x2a, 0x2a, 0x18, 0x44]).1 ≠
      .error (.malformedEncoding 0x44) := by
  constructor <;> decide

/-- C3 (amended): for every byte `b ∉ {0x41, 0x42, 0x43}` read in the
encoding position (immediately after the `ZPAD ZPAD ZDLE` preamble),
the header reader raises a failure of the MalformedPacket kind carrying
`b`, and resets to its initial seeking state so that subsequent bytes
can re-synchronize. -/
theorem encoding_reject_amended (b : Nat) (hb : b < 256)
    (h1 : b ≠ 0x41) (h2 : b ≠ 0x42) (h3 : b ≠ 0x43) :
    hrRead HR.init [ZPAD, ZPAD, ZDLE, b] =
      (.error (.malformedPacket b), HR.init) := by
  simp [hrRead, HR.init, hrSeekStep, advanceZpadState, ZPAD, ZDLE, bumpHr,
    encByteSwitch, h1, h2, h3]

theorem encoding_reject_amended_witness :
    hrRead HR.init [ZPAD, ZPAD, ZDLE, 0x44] =
      (.error (.malformedPacket 0x44), HR.init) :=
  encoding_reject_amended 0x44 (by decide) (by decide) (by decide) (by decide)

/-! ## C7 — Sender caller-side violations -/

/-- C7: the caller-side violations of `feed_file` and `start_file` fail
with the specified kinds and leave the Sender unchanged: `feed_file`
raises UnexpectedEof on an empty slice, on a slice longer than the
pending request's `len`, and on a slice that would exceed the declared
file size; it raises Unsupported outside `NeedFileData` or without a
pending request; `start_file` raises Unsupported outside
`WaitReceiverInit` / `ReadyForFile`. -/
theorem sender_caller_violations :
    (∀ (s : SenderM) (d : List Nat), s.state ≠ .needFileData →
      feedFile s d = (.error .unsupported, s)) ∧
    (∀ (s : SenderM) (d : List Nat), s.state = .needFileData →
      s.pendingRequest = none → feedFile s d = (.error .unsupported, s)) ∧
    (∀ (s : SenderM) (req : FileRequest), s.state = .needFileData →
      s.pendingRequest = some req → feedFile s [] = (.error .unexpectedEof, s)) ∧
    (∀ (s : SenderM) (req : FileRequest) (d : List Nat), s.state = .needFileData →
      s.pendingRequest = some req → req.len < d.length →
      feedFile s d = (.error .unexpectedEof, s)) ∧
    (∀ (s : SenderM) (req : FileRequest) (d : List Nat), s.state = .needFileData →
      s.pendingRequest = some req → d ≠ [] → d.length ≤ req.len →
      s.fileSize - req.offset < d.length →
      feedFile s d = (.error .unexpectedEof, s)) ∧
    (∀ (s : SenderM) (name : List Nat) (size : Nat),
      s.state ≠ .waitReceiverInit → s.state ≠ .readyForFile →
      startFile name size s = (.error .unsupported, s)) := by
  refine ⟨?_, ?_, ?_, ?_, ?_, ?_⟩
  · intro s d h
    simp [feedFile, h]
  · intro s d h hreq
    simp [feedFile, h, hreq]
  · intro s req h hreq
    simp [feedFile, h, hreq]
  · intro s req d h hreq hlen
    have hd0 : ¬(d.length = 0) := by omega
    simp [feedFile, h, hreq, hd0, hlen]
  · intro s req d h hreq hne hle hrem
    have hd0 : ¬(d.length = 0) := fun hl => hne (List.length_eq_zero.mp hl)
    have hl2 : ¬(req.len < d.length) := by omega
    simp [feedFile, h, hreq, hd0, hl2, hrem]
  · intro s name size hw hr
    rw [startFile, if_pos (Or.inr (Or.inr ⟨hw, hr⟩))]

def c7s2 : SenderM := { senderNew false with state := .needFileData }
def c7s3 : SenderM :=
  { senderNew false with state := .needFileData, pendingRequest := some ⟨0, 5⟩ }
def c7s5 : SenderM :=
  { senderNew false with
    state := .needFileData, pendingRequest := some ⟨0, 5⟩, fileSize := 2 }
def c7s6 : SenderM := { senderNew false with state := .waitFilePos }

theorem sender_caller_violations_witness :
    feedFile (senderNew false) [1] = (.error .unsupported, senderNew false) ∧
    feedFile c7s2 [1] = (.error .unsupported, c7s2) ∧
    feedFile c7s3 [] = (.error .unexpectedEof, c7s3) ∧
    feedFile c7s3 [0, 0, 0, 0, 0, 0] = (.error .unexpectedEof, c7s3) ∧
    feedFile c7s5 [1, 2, 3] = (.error .unexpectedEof, c7s5) ∧
    startFile [0x61] 7 c7s6 = (.error .unsupported, c7s6) :=
  ⟨sender_caller_violations.1 (senderNew false) [1] (by decide),
   sender_caller_violations.2.1 c7s2 [1] (by decide) (by decide),
   sender_caller_violations.2.2.1 c7s3 ⟨0, 5⟩ (by decide) (by decide),
   sender_caller_violations.2.2.2.1 c7s3 ⟨0, 5⟩ [0, 0, 0, 0, 0, 0]
     (by decide) (by decide) (by decide),
   sender_caller_violations.2.2.2.2.1 c7s5 ⟨0, 5⟩ [1, 2, 3]
     (by decide) (by decide) (by decide) (by decide) (by decide),
   sender_caller_violations.2.2.2.2.2 c7s6 [0x61] 7 (by decide) (by decide)⟩

/-! ## C8 — finish_subpacket -/

theorem extendCap_ok (cap : Nat) :
    ∀ (xs b : List Nat), (∀ x ∈ xs, x < 256) → b.length + xs.length ≤ cap →
      extendCap cap b xs = (.ok (), b ++ xs) := by
  intro xs
  induction xs with
  | nil => intro b _ _; simp [extendCap]
  | cons x rest ih =>
    intro b hlt hle
    have hx : x % 256 = x := Nat.mod_eq_of_lt (hlt x (by simp))
    have hcap : ¬(cap ≤ b.length) := by
      simp only [List.length_cons] at hle
      omega
    have hle2 : (b ++ [x]).length + rest.length ≤ cap := by
      simp only [List.length_append, List.length_cons] at hle ⊢
      simp only [List.length_nil]
      omega
    rw [extendCap, if_neg hcap, hx,
      ih (b ++ [x]) (fun y hy => hlt y (by simp [hy])) hle2]
    simp

theorem hexDigit_lt (d : Nat) (hd : d < 16) : hexDigit d < 256 := by
  unfold hexDigit
  split <;> omega

theorem hexByte_lt (b : Nat) (hb : b < 256) : ∀ x ∈ hexByte b, x < 256 := by
  intro x hx
  simp only [hexByte, List.mem_cons, List.mem_singleton] at hx
  rcases hx with rfl | rfl | hx
  · exact hexDigit_lt _ (by omega)
  · exact hexDigit_lt _ (Nat.mod_lt _ (by omega))
  · simp at hx

theorem headerCrcBytes_lt (e : Enc) (p : List Nat) :
    ∀ x ∈ headerCrcBytes e p, x < 256 := by
  intro x hx
  cases e <;> simp only [headerCrcBytes, le4, be2, List.mem_cons,
    List.mem_singleton] at hx <;>
    rcases hx with rfl | rfl | hx
  · exact Nat.lt_succ_of_le (Nat.and_le_right)
  · exact Nat.lt_succ_of_le (Nat.and_le_right)
  · simp at hx
  · exact Nat.lt_succ_of_le (Nat.and_le_right)
  · exact Nat.lt_succ_of_le (Nat.and_le_right)
  · simp at hx
  · exact Nat.mod_lt _ (by omega)
  · exact Nat.mod_lt _ (by omega)
  · rcases hx with rfl | rfl | hx
    · exact Nat.mod_lt _ (by omega)
    · exact Nat.mod_lt _ (by omega)
    · simp at hx

/-- The flag bytes `le4 v` are below 256. -/
theorem le4_lt (v : Nat) : ∀ x ∈ le4 v, x < 256 := by
  intro x hx
  simp only [le4, List.mem_cons, List.mem_singleton] at hx
  rcases hx with rfl | rfl | rfl | rfl | hx
  · exact Nat.mod_lt _ (by omega)
  · exact Nat.mod_lt _ (by omega)
  · exact Nat.mod_lt _ (by omega)
  · exact Nat.mod_lt _ (by omega)
  · simp at hx

/-- Every byte of a ZHEX-encoded header is below 256. -/
theorem encodeZhex_lt (frame : Nat) (flags : List Nat) (hfr : frame < 256)
    (hf : ∀ x ∈ flags, x < 256) :
    ∀ x ∈ (ZHeader.mk .zhex frame flags).encode, x < 256 := by
  intro x hx
  simp only [ZHeader.encode, wireIntro, headerCrcBytes, List.mem_append,
    List.mem_flatMap, List.mem_cons, List.mem_singleton] at hx
  rcases hx with ((h4 | hhex) | hcrlf) | hxon
  · rcases h4 with rfl | rfl | rfl | rfl | hb
    · decide
    · decide
    · decide
    · decide
    · simp at hb
  · obtain ⟨b, hb, hxb⟩ := hhex
    have hb256 : b < 256 := by
      rcases hb with (rfl | hb1) | hb2
      · exact hfr
      · exact hf b hb1
      · exact headerCrcBytes_lt .zhex (frame :: flags) b
          (by simpa [headerCrcBytes] using hb2)
    exact hexByte_lt b hb256 x hxb
  · rcases hcrlf with rfl | rfl | hb
    · omega
    · omega
    · simp at hb
  · split at hxon
    · simp only [List.mem_singleton] at hxon
      subst hxon
      simp [XON]
    · simp at hxon

theorem zackWire_length (c : Nat) : (zackWire c).length = 20 := by
  simp [zackWire, ZHeader.encode, ZHeader.withCount, ZACK_HEADER, wireIntro,
    headerCrcBytes, be2, le4, hexByte, frameZACK, frameZFIN]

theorem zackWire_lt (c : Nat) : ∀ x ∈ zackWire c, x < 256 := by
  have : zackWire c = (ZHeader.mk .zhex frameZACK (le4 c)).encode := rfl
  rw [this]
  exact encodeZhex_lt _ _ (by simp [frameZACK]) (le4_lt c)

theorem zackWire_extendCap (c : Nat) :
    extendCap OUTGOING_CAP [] (zackWire c) = (.ok (), zackWire c) := by
  have h := extendCap_ok OUTGOING_CAP (zackWire c) [] (zackWire_lt c)
    (by rw [zackWire_length]; simp [OUTGOING_CAP])
  simpa using h

/-- C8: for every terminator, `finish_subpacket` adds the payload length
to `count`, resets the payload buffer and the CRC accumulators, and
then: ZCRCW queues ZACK(count) and moves to `FileWaitingSubpacket` with
subpacket state `Idle`; ZCRCQ queues ZACK(count) and sets subpacket
state `Reading` (Receiver state unchanged); ZCRCG queues nothing and
sets subpacket state `Reading`; ZCRCE queues nothing and moves to
`FileWaitingSubpacket` with subpacket state `Idle`. -/
theorem finishSubpacket_spec (s : RecvM) :
    finishSubpacket .zcrcw s = (.ok (), { s with
      count := s.count + s.buf.length, buf := [], bufWriteOffset := 0,
      crc16 := 0x0000, crc32 := 0xFFFFFFFF, crcEscapePending := false,
      crcBytesRead := 0, crcBuf := [],
      outgoing := zackWire (s.count + s.buf.length), outgoingOffset := 0,
      state := .fileWaitingSubpacket, subpacketState := .idle,
      subpacketEscapePending := false }) ∧
    finishSubpacket .zcrcq s = (.ok (), { s with
      count := s.count + s.buf.length, buf := [], bufWriteOffset := 0,
      crc16 := 0x0000, crc32 := 0xFFFFFFFF, crcEscapePending := false,
      crcBytesRead := 0, crcBuf := [],
      outgoing := zackWire (s.count + s.buf.length), outgoingOffset := 0,
      subpacketState := .reading, subpacketEscapePending := false }) ∧
    finishSubpacket .zcrcg s = (.ok (), { s with
      count := s.count + s.buf.length, buf := [], bufWriteOffset := 0,
      crc16 := 0x0000, crc32 := 0xFFFFFFFF, crcEscapePending := false,
      crcBytesRead := 0, crcBuf := [],
      subpacketState := .reading, subpacketEscapePending := false }) ∧
    finishSubpacket .zcrce s = (.ok (), { s with
      count := s.count + s.buf.length, buf := [], bufWriteOffset := 0,
      crc16 := 0x0000, crc32 := 0xFFFFFFFF, crcEscapePending := false,
      crcBytesRead := 0, crcBuf := [],
      state := .fileWaitingSubpacket, subpacketState := .idle,
      subpacketEscapePending := false }) := by
  refine ⟨?_, ?_, ?_, ?_⟩ <;>
    simp [finishSubpacket, recvQueueZack, recvSetOutgoing, resetCrc,
      zackWire_extendCap]

/-! ## C10 — ZEOF with wrong count or state is silently ignored -/

/-- C10: a ZEOF header whose count differs from the Receiver's count,
or arriving in any state other than `FileWaitingSubpacket`, leaves the
Receiver entirely unchanged — no outgoing bytes, no event, no state,
count or metadata change — and raises no error. -/
theorem zeof_ignored (h : ZHeader) (r : RecvM) (hf : h.frame = frameZEOF)
    (hmiss : r.state ≠ .fileWaitingSubpacket ∨ h.count ≠ r.count) :
    recvHandleHeader h r = (.ok (), r) := by
  have hcond : ¬(r.state = .fileWaitingSubpacket ∧ h.count = r.count) := by
    rcases hmiss with hm | hm
    · exact fun hc => hm hc.1
    · exact fun hc => hm hc.2
  simp [recvHandleHeader, hf, frameZRQINIT, frameZFILE, frameZDATA, frameZEOF,
    frameZFIN, hcond]

theorem zeof_ignored_witness :
    recvHandleHeader (ZEOF_HEADER.withCount 5) receiverNew = (.ok (), receiverNew) :=
  zeof_ignored (ZEOF_HEADER.withCount 5) receiverNew (by decide)
    (Or.inl (by decide))

/-! ## C9 — garbage immunity and chunking invariance -/

theorem bumpHr_snd (p : Except ZErr (Option (ZHeader × Nat)) × HR) :
    (bumpHr p).2 = p.2 := by
  rcases p with ⟨r, h⟩
  match r with
  | .ok (some (a, b)) => rfl
  | .ok none => rfl
  | .error e => rfl

theorem bumpHr_fst_none (p : Except ZErr (Option (ZHeader × Nat)) × HR) :
    (bumpHr p).1 = .ok none ↔ p.1 = .ok none := by
  rcases p with ⟨r, h⟩
  match r with
  | .ok (some (a, b)) => simp [bumpHr]
  | .ok none => simp [bumpHr]
  | .error e => simp [bumpHr]

theorem bumpHr_none_id (p : Except ZErr (Option (ZHeader × Nat)) × HR)
    (hp : p.1 = .ok none) : bumpHr p = p := by
  rcases p with ⟨r, h⟩
  simp at hp
  subst hp
  rfl

theorem hrDecode_fst_ne_none (hr : HR) (k : Nat) :
    (hrDecode hr k).1 ≠ .ok none := by
  unfold hrDecode
  split
  · simp
  · split <;> simp

theorem hrRead_append_none (c1 : List Nat) : ∀ (hr : HR) (c2 : List Nat),
    (hrRead hr (c1 ++ c2)).1 = .ok none →
    (hrRead hr c1).1 = .ok none ∧
    hrRead (hrRead hr c1).2 c2 = hrRead hr (c1 ++ c2) := by
  induction c1 with
  | nil => intro hr c2 hp; exact ⟨rfl, rfl⟩
  | cons b rest ih =>
    intro hr c2 hp
    rw [List.cons_append] at hp ⊢
    match hst : hr.state with
    | .seekingZpad =>
      have hL : hrRead hr (b :: (rest ++ c2)) = bumpHr (hrRead (hrSeekStep hr b) (rest ++ c2)) := by
        rw [hrRead, hst]
      have hR : hrRead hr (b :: rest) = bumpHr (hrRead (hrSeekStep hr b) rest) := by
        rw [hrRead, hst]
      rw [hL] at hp ⊢
      rw [hR]
      have hp2 := (bumpHr_fst_none _).mp hp
      obtain ⟨ihn, ihe⟩ := ih _ c2 hp2
      refine ⟨(bumpHr_fst_none _).mpr ihn, ?_⟩
      rw [bumpHr_snd, ihe, bumpHr_none_id _ hp2]
    | .readingEncoding =>
      match henc : encByteSwitch b with
      | none =>
        have hL : hrRead hr (b :: (rest ++ c2)) = (.error (.malformedPacket b), HR.init) := by
          rw [hrRead, hst, henc]
        rw [hL] at hp
        simp at hp
      | some e =>
        have hL : hrRead hr (b :: (rest ++ c2)) = bumpHr (hrRead (hrEncStep hr e) (rest ++ c2)) := by
          rw [hrRead, hst, henc]
        have hR : hrRead hr (b :: rest) = bumpHr (hrRead (hrEncStep hr e) rest) := by
          rw [hrRead, hst, henc]
        rw [hL] at hp ⊢
        rw [hR]
        have hp2 := (bumpHr_fst_none _).mp hp
        obtain ⟨ihn, ihe⟩ := ih _ c2 hp2
        refine ⟨(bumpHr_fst_none _).mpr ihn, ?_⟩
        rw [bumpHr_snd, ihe, bumpHr_none_id _ hp2]
    | .readingData =>
      by_cases hfull : hr.expectedLen ≤ hr.buf.length
      · have hL : hrRead hr (b :: (rest ++ c2)) = hrDecode hr 0 := by
          rw [hrRead, hst, if_pos hfull]
        rw [hL] at hp
        exact absurd hp (hrDecode_fst_ne_none hr 0)
      · by_cases hfull2 : (hrDataStep hr b).expectedLen ≤ (hrDataStep hr b).buf.length
        · have hL : hrRead hr (b :: (rest ++ c2)) = hrDecode (hrDataStep hr b) 1 := by
            rw [hrRead, hst, if_neg hfull, if_pos hfull2]
          rw [hL] at hp
          exact absurd hp (hrDecode_fst_ne_none _ 1)
        · have hL : hrRead hr (b :: (rest ++ c2)) = bumpHr (hrRead (hrDataStep hr b) (rest ++ c2)) := by
            rw [hrRead, hst, if_neg hfull, if_neg hfull2]
          have hR : hrRead hr (b :: rest) = bumpHr (hrRead (hrDataStep hr b) rest) := by
            rw [hrRead, hst, if_neg hfull, if_neg hfull2]
          rw [hL] at hp ⊢
          rw [hR]
          have hp2 := (bumpHr_fst_none _).mp hp
          obtain ⟨ihn, ihe⟩ := ih _ c2 hp2
          refine ⟨(bumpHr_fst_none _).mpr ihn, ?_⟩
          rw [bumpHr_snd, ihe, bumpHr_none_id _ hp2]



theorem recvFeed_none (r : RecvM) (c : List Nat)
    (hstate : r.state = .sessionBegin)
    (hfd : r.subpacketState ≠ .writing)
    (hev : r.pendingEventLen < 4)
    (hnone : (hrRead r.headerReader c).1 = .ok none) :
    recvFeedIncoming r c =
      (.ok 0, { r with headerReader := (hrRead r.headerReader c).2 }) := by
  rw [recvFeedIncoming, recvFeedLoop.eq_def]
  have h1 : ¬(hasFileData r ∨ pendingEventsFull r) := by
    simp only [hasFileData, pendingEventsFull]
    push_neg
    exact ⟨hfd, by omega⟩
  rw [if_neg h1]
  have h2 : ¬(r.state = .fileReadingSubpacket ∨ r.state = .fileReadingMetadata) := by
    simp [hstate]
  rw [if_neg h2]
  simp only [List.drop_zero]
  rcases hrr : hrRead r.headerReader c with ⟨res, hr2⟩
  rw [hrr] at hnone
  simp only at hnone
  subst hnone
  simp [hrr]

def feedAll (r : RecvM) : List (List Nat) → (Except ZErr Nat) × RecvM
  | [] => (.ok 0, r)
  | c :: cs =>
    match recvFeedIncoming r c with
    | (.ok n, r1) =>
      match feedAll r1 cs with
      | (.ok m, r2) => (.ok (n + m), r2)
      | (.error e, r2) => (.error e, r2)
    | (.error e, r1) => (.error e, r1)

theorem feedAll_none : ∀ (cs : List (List Nat)) (r : RecvM),
    r.state = .sessionBegin → r.subpacketState ≠ .writing →
    r.pendingEventLen < 4 →
    (hrRead r.headerReader cs.flatten).1 = .ok none →
    feedAll r cs =
      (.ok 0, { r with headerReader := (hrRead r.headerReader cs.flatten).2 }) := by
  intro cs
  induction cs with
  | nil => intro r h1 h2 h3 h4; rfl
  | cons c cs ih =>
    intro r h1 h2 h3 h4
    rw [List.flatten_cons] at h4
    obtain ⟨hn1, he1⟩ := hrRead_append_none c r.headerReader cs.flatten h4
    have hfeed := recvFeed_none r c h1 h2 h3 hn1
    have ih2 := ih { r with headerReader := (hrRead r.headerReader c).2 }
      h1 h2 h3 (by rw [he1]; exact h4)
    rw [feedAll]
    simp only [hfeed, ih2, List.flatten_cons, he1]


set_option maxRecDepth 10000 in
/-- C9: for any byte sequence in which no ZMODEM header completes
(and no malformed-preamble failure fires) — formalised as the header
reader scanning the whole sequence and returning "not ready" — feeding
it to a fresh Receiver in any chunking consumes 0 bytes in total,
produces no file data and no events, and leaves the outgoing buffer
holding exactly the initial ZRINIT bytes (never re-queued); any two
chunkings give identical consumed totals and identical outgoing
bytes. -/
theorem receiver_garbage_immunity (s : List Nat) (hlen : s.length ≤ 65536)
    (hnh : (hrRead HR.init s).1 = .ok none) :
    (∀ cs : List (List Nat), cs.flatten = s →
      (feedAll receiverNew cs).1 = .ok 0 ∧
      (feedAll receiverNew cs).2.outgoing = zrinitWire ∧
      (feedAll receiverNew cs).2.outgoingOffset = 0 ∧
      (feedAll receiverNew cs).2.pendingEventLen = 0 ∧
      ¬hasFileData (feedAll receiverNew cs).2 ∧
      (feedAll receiverNew cs).2.buf = []) ∧
    (∀ cs1 cs2 : List (List Nat), cs1.flatten = s → cs2.flatten = s →
      (feedAll receiverNew cs1).1 = (feedAll receiverNew cs2).1 ∧
      (feedAll receiverNew cs1).2.outgoing = (feedAll receiverNew cs2).2.outgoing) := by
  have hR : receiverNew.headerReader = HR.init := by decide
  have key : ∀ cs : List (List Nat), cs.flatten = s →
      feedAll receiverNew cs =
        (.ok 0, { receiverNew with headerReader := (hrRead HR.init s).2 }) := by
    intro cs hcs
    have hfa := feedAll_none cs receiverNew (by decide) (by decide) (by decide)
      (by rw [hR, hcs]; exact hnh)
    rw [hfa, hR, hcs]
  constructor
  · intro cs hcs
    rw [key cs hcs]
    refine ⟨rfl, ?_, ?_, ?_, ?_, ?_⟩
    · show receiverNew.outgoing = zrinitWire
      decide
    · show receiverNew.outgoingOffset = 0
      decide
    · show receiverNew.pendingEventLen = 0
      decide
    · show ¬hasFileData receiverNew
      decide
    · show receiverNew.buf = []
      decide
  · intro cs1 cs2 h1 h2
    rw [key cs1 h1, key cs2 h2]
    exact ⟨rfl, rfl⟩

set_option maxRecDepth 10000 in
theorem receiver_garbage_immunity_witness :
    (feedAll receiverNew [[0x61], [0x62, 0x63]]).1 = .ok 0 ∧
    (feedAll receiverNew [[0x61], [0x62, 0x63]]).1 =
      (feedAll receiverNew [[0x61, 0x62], [0x63]]).1 ∧
    (feedAll receiverNew [[0x61], [0x62, 0x63]]).2.outgoing =
      (feedAll receiverNew [[0x61, 0x62], [0x63]]).2.outgoing :=
  have h := receiver_garbage_immunity [0x61, 0x62, 0x63] (by decide) (by decide)
  ⟨(h.1 [[0x61], [0x62, 0x63]] (by decide)).1,
   (h.2 [[0x61], [0x62, 0x63]] [[0x61, 0x62], [0x63]] (by decide) (by decide)).1,
   (h.2 [[0x61], [0x62, 0x63]] [[0x61, 0x62], [0x63]] (by decide) (by decide)).2⟩

/-! ## C6 — header encode/decode round-trip -/

/-- The streaming ZDLE unescape of the header reader's `ReadingData`
discipline, as a plain function on a complete escaped frame body (the
`strip_frame` companion from spec §4.2 / §8). -/
def unescStream (pending : Bool) : List Nat → List Nat
  | [] => []
  | b :: rest =>
    if pending then unzdleTable b :: unescStream false rest
    else if b = ZDLE then unescStream true rest
    else b :: unescStream false rest

/-- `strip_frame`: drop the ZPAD [ZPAD] ZDLE EncByte framing bytes, and
for ZHEX keep exactly the 14 hex characters (dropping the CR LF [XON]
trailer); for the binary encodings undo the ZDLE escaping. -/
def stripFrame (e : Enc) (wire : List Nat) : List Nat :=
  match e with
  | .zhex => (wire.drop 4).take 14
  | _ => unescStream false (wire.drop 3)

set_option maxRecDepth 10000 in
theorem zdle_tbl_fix (b : Nat) (hb : b < 256) (he : zdleTable b = b) : b ≠ ZDLE := by
  have : ∀ x : Fin 256, zdleTable x.val = x.val → x.val ≠ ZDLE := by decide
  exact this ⟨b, hb⟩ he

set_option maxRecDepth 10000 in
theorem zdle_tbl_inv (b : Nat) (hb : b < 256) (he : zdleTable b ≠ b) :
    unzdleTable (zdleTable b) = b := by
  have : ∀ x : Fin 256, zdleTable x.val ≠ x.val → unzdleTable (zdleTable x.val) = x.val := by
    decide
  exact this ⟨b, hb⟩ he

theorem escapeBytes_cons (b : Nat) (rest : List Nat) :
    escapeBytes (b :: rest) =
      (if zdleTable b ≠ b then [ZDLE, zdleTable b] else [b]) ++ escapeBytes rest := by
  simp [escapeBytes]

theorem unesc_escape : ∀ l : List Nat, (∀ b ∈ l, b < 256) →
    unescStream false (escapeBytes l) = l := by
  intro l
  induction l with
  | nil => intro _; rfl
  | cons b rest ih =>
    intro h
    have hb := h b (by simp)
    rw [escapeBytes_cons]
    by_cases he : zdleTable b = b
    · rw [if_neg (by simp [he]), List.cons_append, List.nil_append, unescStream]
      rw [if_neg (by simp), if_neg (zdle_tbl_fix b hb he)]
      rw [ih (fun x hx => h x (by simp [hx]))]
    · rw [if_pos (by simp [he]), List.cons_append, List.cons_append, List.nil_append]
      rw [unescStream, if_neg (by simp), if_pos rfl]
      rw [unescStream, if_pos rfl, zdle_tbl_inv b hb he]
      rw [ih (fun x hx => h x (by simp [hx]))]

set_option maxRecDepth 10000 in
theorem hexPair_round (b : Nat) (hb : b < 256) :
    jsParseHex2 (hexDigit (b / 16)) (hexDigit (b % 16)) = some b := by
  have : ∀ x : Fin 256,
      jsParseHex2 (hexDigit (x.val / 16)) (hexDigit (x.val % 16)) = some x.val := by decide
  exact this ⟨b, hb⟩

theorem decodeHexPairs_round : ∀ l : List Nat, (∀ b ∈ l, b < 256) →
    decodeHexPairs (l.flatMap hexByte) = .ok l := by
  intro l
  induction l with
  | nil => intro _; rfl
  | cons b rest ih =>
    intro h
    rw [List.flatMap_cons]
    show decodeHexPairs (hexDigit (b / 16) :: hexDigit (b % 16) :: rest.flatMap hexByte) = _
    rw [decodeHexPairs, hexPair_round b (h b (by simp)),
      ih (fun x hx => h x (by simp [hx]))]

theorem flatMap_hexByte_length (l : List Nat) :
    (l.flatMap hexByte).length = 2 * l.length := by
  induction l with
  | nil => rfl
  | cons b rest ih => simp [List.flatMap_cons, hexByte, ih]; omega

theorem decodePayload_round (e : Enc) (frame f0 f1 f2 f3 : Nat) (hfr : frame ≤ 19) :
    decodePayload e ((frame :: [f0, f1, f2, f3]) ++
        headerCrcBytes e (frame :: [f0, f1, f2, f3])) =
      .ok ⟨e, frame, [f0, f1, f2, f3]⟩ := by
  cases e <;>
    simp [decodePayload, headerCrcBytes, be2, le4, HEADER_PAYLOAD_SIZE,
      headerOf, frameFromByte, hfr, List.take, List.drop]

set_option maxRecDepth 10000 in
/-- C6: for every encoding, every frame type 0..19 and every 4-byte
flags array, decoding the wire bytes of `encode(Header(e, frame,
flags))` after stripping the framing prefix (and the ZHEX trailer)
reproduces the original header — frame, flags (hence count) — with no
error. -/
theorem header_roundtrip (e : Enc) (frame f0 f1 f2 f3 : Nat)
    (hfr : frame ≤ 19) (h0 : f0 < 256) (h1 : f1 < 256) (h2 : f2 < 256)
    (h3 : f3 < 256) :
    decodeHeader e (stripFrame e (ZHeader.encode ⟨e, frame, [f0, f1, f2, f3]⟩)) =
      .ok ⟨e, frame, [f0, f1, f2, f3]⟩ := by
  have hall : ∀ b ∈ (frame :: [f0, f1, f2, f3]) ++
      headerCrcBytes e (frame :: [f0, f1, f2, f3]), b < 256 := by
    intro b hb
    simp only [List.mem_append, List.mem_cons, List.not_mem_nil, or_false] at hb
    rcases hb with (rfl | rfl | rfl | rfl | rfl) | hb2
    · omega
    · exact h0
    · exact h1
    · exact h2
    · exact h3
    · exact headerCrcBytes_lt e _ b hb2
  cases e
  case zbin =>
    have hs : stripFrame .zbin (ZHeader.encode ⟨.zbin, frame, [f0, f1, f2, f3]⟩) =
        unescStream false (escapeBytes ((frame :: [f0, f1, f2, f3]) ++
          headerCrcBytes .zbin (frame :: [f0, f1, f2, f3]))) := rfl
    rw [hs, unesc_escape _ hall]
    exact decodePayload_round .zbin frame f0 f1 f2 f3 hfr
  case zbin32 =>
    have hs : stripFrame .zbin32 (ZHeader.encode ⟨.zbin32, frame, [f0, f1, f2, f3]⟩) =
        unescStream false (escapeBytes ((frame :: [f0, f1, f2, f3]) ++
          headerCrcBytes .zbin32 (frame :: [f0, f1, f2, f3]))) := rfl
    rw [hs, unesc_escape _ hall]
    exact decodePayload_round .zbin32 frame f0 f1 f2 f3 hfr
  case zhex =>
    have hs : stripFrame .zhex (ZHeader.encode ⟨.zhex, frame, [f0, f1, f2, f3]⟩) =
        ((frame :: [f0, f1, f2, f3]) ++
          headerCrcBytes .zhex (frame :: [f0, f1, f2, f3])).flatMap hexByte := rfl
    rw [hs]
    simp only [decodeHeader, flatMap_hexByte_length, Nat.mul_mod_right, ne_eq,
      not_true_eq_false, not_false_eq_true, if_false, ite_false]
    rw [decodeHexPairs_round _ hall]
    exact decodePayload_round .zhex frame f0 f1 f2 f3 hfr

theorem header_roundtrip_witness :
    decodeHeader .zbin32
        (stripFrame .zbin32 (ZHeader.encode ⟨.zbin32, frameZDATA, [1, 2, 3, 4]⟩)) =
      .ok ⟨.zbin32, frameZDATA, [1, 2, 3, 4]⟩ :=
  header_roundtrip .zbin32 frameZDATA 1 2 3 4 (by decide) (by decide) (by decide)
    (by decide) (by decide)

end Zmodem
